import Mathlib

/-!
Verification of `tools/pin-cpu.py`: a one-shot tool that queries a VM
management endpoint for the OS thread id backing each virtual CPU and sets
each such thread's CPU affinity to a single core.

The script is Python 3 (its shebang runs python3).  The embedding below
translates each construct of the source:

* `onlinecpu()` (lines 6-14) over an abstract NUMA topology (the `numa`
  library calls `get_max_node` and `node_to_cpus` become fields of
  `Topology`);
* `pin_proc(pid, core)` (lines 17-24) over an abstract host
  (`psutil.Process(pid).cpu_affinity([core])` raises `NoSuchProcess` for an
  absent thread id and `ValueError` for an out-of-range core; the handler
  statement `print >> sys.stderr, e` is a Python 2 idiom that, under
  Python 3, is the binary operator `>>` applied to the builtin function
  `print`, which raises `TypeError` before any output and before
  `sys.exit(1)`);
* the main flow (lines 30-36): endpoint construction from `sys.argv[1]`,
  two `query.cmd("query-cpus-fast")` calls (the first one printed), the
  target core list `o_cpus = [x for x in range(int(sys.argv[2]))]`, and the
  pinning loop `for i in range(int(sys.argv[2]))`.

Command-line arguments are modelled as `port : String` (= `sys.argv[1]`)
and `n : Nat` (= `int(sys.argv[2])`, assumed to parse and be nonnegative;
`range` of a negative number is empty, matching `n = 0`).  A run is
modelled for a reachable endpoint: the QMP response is an input.
-/

namespace PinCpu

/-- Host NUMA topology as observed through the `numa` library:
`get_max_node()` and `node_to_cpus(node)`. -/
structure Topology where
  maxNode : Nat
  nodeToCpus : Nat → List Nat

/-- The Python builtin `sorted` on a list of CPU ids: ascending order
(insertion sort is stable, as `sorted` is; on `Nat` the result is the unique
sorted permutation). -/
def pySorted (l : List Nat) : List Nat := List.insertionSort (· ≤ ·) l

/-- `onlinecpu()` from pin-cpu.py lines 6-14: start from an empty list and,
for each node from 0 through `get_max_node()`, append each CPU of the node
in sorted order. -/
def onlinecpu (t : Topology) : List Nat :=
  (List.range (t.maxNode + 1)).foldl
    (fun o_cpus node =>
      (pySorted (t.nodeToCpus node)).foldl (fun acc cpu => acc ++ [cpu]) o_cpus)
    []

/-- The topology used by the concrete examples in the spec:
node 0 holds cpus [2,0] and node 1 holds cpus [3,1]. -/
def exTopology : Topology :=
  ⟨1, fun node => if node = 0 then [2, 0] else if node = 1 then [3, 1] else []⟩

/-- One vCPU record of the `query-cpus-fast` response: its numeric
`thread-id` field (already numeric, so `int()` is the identity on it). -/
structure VCpuEntry where
  threadId : Int
deriving DecidableEq

/-- The value of a `query-cpus-fast` command: the list bound to the
`return` key of the response. -/
structure QmpResponse where
  ret : List VCpuEntry
deriving DecidableEq

/-- A QMP connection: the address it was opened on and the log of commands
issued through it, in order. -/
structure QmpConn where
  endpoint : String
  log : List String
deriving DecidableEq

/-- `qmp.QMPQuery(addr)`: open a connection to `addr`; no command issued yet. -/
def QMPQuery (addr : String) : QmpConn := ⟨addr, []⟩

/-- `query.cmd(s)`: issue command `s` on the connection and receive the
reply (the reply is the run input `resp`, the endpoint being reachable). -/
def QmpConn.cmd (c : QmpConn) (s : String) (resp : QmpResponse) :
    QmpConn × QmpResponse :=
  (⟨c.endpoint, c.log ++ [s]⟩, resp)

/-- Line 30: `"localhost:%s" % (sys.argv[1])` — the host part is fixed to
localhost, the port comes from the first argument. -/
def qmpEndpoint (port : String) : String := "localhost:" ++ port

/-- The single QMP command the script uses. -/
def queryCpusFast : String := "query-cpus-fast"

/-- The host as observed through `psutil`: which cores exist (ids
`0 .. numCores - 1`) and which OS thread ids exist. -/
structure Host where
  numCores : Nat
  threadExists : Int → Bool

/-- Python exceptions that can arise in this script. -/
inductive PyExc where
  | valueError (msg : String)
  | typeError (msg : String)
  | noSuchProcess (pid : Int)
  | indexError
deriving DecidableEq

/-- The `ValueError` message psutil raises for an out-of-range CPU id. -/
def veMsg : String := "invalid CPU number"

/-- The `TypeError` message for applying `>>` to the builtin `print`. -/
def tcMsg : String := "unsupported operand types for >> on builtin print"

/-- `psutil.Process(pid).cpu_affinity([core])`: constructing
`psutil.Process(pid)` raises `psutil.NoSuchProcess` (a subclass of
`psutil.Error`, not of `ValueError`) when no such thread id exists; then
`cpu_affinity` raises `ValueError` when the core id is out of range;
otherwise the affinity mask is set to the single core. -/
def cpu_affinity_call (host : Host) (pid : Int) (core : Nat) :
    Except PyExc Unit :=
  if host.threadExists pid then
    if core < host.numCores then Except.ok ()
    else Except.error (PyExc.valueError veMsg)
  else Except.error (PyExc.noSuchProcess pid)

/-- The Python 3 semantics of the statement `print >> sys.stderr, e`
(line 23): `print` is a builtin function, so `print >> sys.stderr` is an
unsupported binary operation and raises `TypeError` before writing
anything and before reaching the next statement. -/
def printChevronStderr (_e : PyExc) : Except PyExc Unit :=
  Except.error (PyExc.typeError tcMsg)

/-- Outcome of one `pin_proc` call. `sysExit c` means `sys.exit(c)` was
reached; `uncaught e ch` means exception `e` escaped `pin_proc`, with
`ch` the exception that was being handled when `e` was raised (Python 3
exception chaining), if any. -/
inductive PinResult where
  | ok
  | sysExit (code : Nat)
  | uncaught (e : PyExc) (chained : Option PyExc)
deriving DecidableEq

/-- `pin_proc(pid, core)` from pin-cpu.py lines 17-24: try the affinity
call; `except ValueError as e` catches exactly `ValueError`, whose handler
first runs `print >> sys.stderr, e` and then `sys.exit(1)`; any other
exception propagates out of `pin_proc`. -/
def pin_proc (host : Host) (pid : Int) (core : Nat) : PinResult :=
  match cpu_affinity_call host pid core with
  | Except.ok _ => PinResult.ok
  | Except.error (PyExc.valueError m) =>
    match printChevronStderr (PyExc.valueError m) with
    | Except.ok _ => PinResult.sysExit 1
    | Except.error e2 => PinResult.uncaught e2 (some (PyExc.valueError m))
  | Except.error e => PinResult.uncaught e none

/-- How the whole process terminates: `exited c` is a normal interpreter
exit or `sys.exit(c)`; `uncaughtExc e ch` is an uncaught exception `e`
(with chained context `ch`), which CPython reports as a traceback on
stderr and an exit status of 1. -/
inductive Termination where
  | exited (code : Nat)
  | uncaughtExc (e : PyExc) (chained : Option PyExc)
deriving DecidableEq

/-- The exceptions whose messages appear on the process diagnostic stream
at termination: for an uncaught exception CPython prints its traceback,
and for a chained exception the traceback of the exception being handled
is printed first. -/
def stderrOf : Termination → List PyExc
  | Termination.exited _ => []
  | Termination.uncaughtExc e none => [e]
  | Termination.uncaughtExc e (some c) => [c, e]

/-- The process exit status: the code of a normal or `sys.exit` exit, and
1 for an uncaught exception. -/
def exitStatusOf : Termination → Nat
  | Termination.exited c => c
  | Termination.uncaughtExc _ _ => 1

/-- Whether the `except ValueError` handler in `pin_proc` ran on the way
to this termination: it either reached `sys.exit(1)` (so the run shows
`exited 1`) or raised while handling a `ValueError` (so the uncaught
exception carries a chained context). -/
def handlerRan : Termination → Bool
  | Termination.uncaughtExc _ (some _) => true
  | Termination.exited 1 => true
  | _ => false

/-- Line 33: `o_cpus = [x for x in range(int(sys.argv[2]))]`. -/
def o_cpus (n : Nat) : List Nat := (List.range n).map (fun x => x)

/-- One iteration of the loop on line 36, at index `i`:
`pin_proc(int(response[i][thread-id]), o_cpus[i])`.  Arguments are
evaluated left to right: `response[i]` raises `IndexError` when `i` is out
of range, as would `o_cpus[i]` (both yield `none` here); otherwise the
result records the pid, the core and the `pin_proc` outcome. -/
def stepOf (host : Host) (response : List VCpuEntry) (cpus : List Nat)
    (i : Nat) : Option (Int × Nat × PinResult) :=
  match response[i]? with
  | none => none
  | some entry =>
    match cpus[i]? with
    | none => none
    | some core => some (entry.threadId, core, pin_proc host entry.threadId core)

/-- The loop `for i in range(int(sys.argv[2]))` (lines 35-36), processing
indices `i, i+1, ..., i+len-1`.  Returns the affinity calls actually made,
as (index, pid, core) triples in order, and how the process terminates:
normally with status 0 after the loop, via `sys.exit`, or via an uncaught
exception, which aborts the remaining iterations. -/
def pinLoop (host : Host) (response : List VCpuEntry) (cpus : List Nat) :
    Nat → Nat → List (Nat × Int × Nat) × Termination
  | _, 0 => ([], Termination.exited 0)
  | i, Nat.succ len =>
    match stepOf host response cpus i with
    | none => ([], Termination.uncaughtExc PyExc.indexError none)
    | some (pid, core, PinResult.ok) =>
      let r := pinLoop host response cpus (i + 1) len
      ((i, pid, core) :: r.1, r.2)
    | some (pid, core, PinResult.sysExit c) =>
      ([(i, pid, core)], Termination.exited c)
    | some (pid, core, PinResult.uncaught e ch) =>
      ([(i, pid, core)], Termination.uncaughtExc e ch)

/-- Everything observable about one run of the script. -/
structure RunOutcome where
  endpoint : String
  commandsIssued : List String
  stdoutResponses : List QmpResponse
  pinCalls : List (Nat × Int × Nat)
  term : Termination

/-- The main flow of pin-cpu.py (lines 30-36) for a reachable endpoint
that answers each `query-cpus-fast` command with `resp`:
open the connection to `localhost:port`, print the reply of a first
`query-cpus-fast`, take the `return` field of a second one, build
`o_cpus` from `range(n)`, and run the pinning loop over `range(n)`.
It takes no `Topology`: the main flow never calls `onlinecpu`. -/
def mainRun (port : String) (n : Nat) (resp : QmpResponse) (host : Host) :
    RunOutcome :=
  let query := QMPQuery (qmpEndpoint port)
  let step1 := query.cmd queryCpusFast resp
  let printed := step1.2
  let step2 := step1.1.cmd queryCpusFast resp
  let response := (step2.2).ret
  let cpus := o_cpus n
  let lr := pinLoop host response cpus 0 n
  ⟨step2.1.endpoint, step2.1.log, [printed], lr.1, lr.2⟩

end PinCpu

namespace PinCpu

theorem append_fold (l : List Nat) :
    ∀ acc : List Nat, l.foldl (fun a c => a ++ [c]) acc = acc ++ l := by
  induction l with
  | nil => intro acc; simp
  | cons x xs ih =>
    intro acc
    rw [List.foldl_cons, ih]
    simp

theorem onlinecpu_flat (t : Topology) :
    onlinecpu t
      = (List.range (t.maxNode + 1)).flatMap
          (fun node => pySorted (t.nodeToCpus node)) := by
  unfold onlinecpu
  have key : ∀ (ns : List Nat) (acc : List Nat),
      ns.foldl
        (fun o_cpus node =>
          (pySorted (t.nodeToCpus node)).foldl (fun acc cpu => acc ++ [cpu]) o_cpus)
        acc
      = acc ++ ns.flatMap (fun node => pySorted (t.nodeToCpus node)) := by
    intro ns
    induction ns with
    | nil => intro acc; simp
    | cons x xs ih =>
      intro acc
      rw [List.foldl_cons, append_fold, ih]
      simp
  rw [key]
  simp

theorem pySorted_sorted (l : List Nat) : List.Sorted (· ≤ ·) (pySorted l) :=
  List.sorted_insertionSort (· ≤ ·) l

theorem pySorted_perm (l : List Nat) : (pySorted l).Perm l :=
  List.perm_insertionSort (· ≤ ·) l

theorem o_cpus_eq_range (n : Nat) : o_cpus n = List.range n := by
  simp [o_cpus]

theorem mainRun_term (port : String) (n : Nat) (resp : QmpResponse)
    (host : Host) :
    (mainRun port n resp host).term = (pinLoop host resp.ret (o_cpus n) 0 n).2 :=
  rfl

theorem mainRun_pinCalls (port : String) (n : Nat) (resp : QmpResponse)
    (host : Host) :
    (mainRun port n resp host).pinCalls
      = (pinLoop host resp.ret (o_cpus n) 0 n).1 :=
  rfl

theorem pin_proc_ne_sysExit (host : Host) (pid : Int) (core : Nat) (c : Nat) :
    pin_proc host pid core ≠ PinResult.sysExit c := by
  unfold pin_proc cpu_affinity_call printChevronStderr
  by_cases ht : host.threadExists pid
  · by_cases hc : core < host.numCores
    · simp [ht, hc]
    · simp [ht, hc]
  · simp [ht]

theorem pin_proc_ok_iff (host : Host) (pid : Int) (core : Nat)
    (ht : host.threadExists pid = true) (hc : core < host.numCores) :
    pin_proc host pid core = PinResult.ok := by
  unfold pin_proc cpu_affinity_call
  simp [ht, hc]

theorem pin_proc_invalid_core (host : Host) (pid : Int) (core : Nat)
    (ht : host.threadExists pid = true) (hc : host.numCores ≤ core) :
    pin_proc host pid core
      = PinResult.uncaught (PyExc.typeError tcMsg) (some (PyExc.valueError veMsg)) := by
  unfold pin_proc cpu_affinity_call printChevronStderr
  simp [ht, Nat.not_lt.mpr hc]

theorem pin_proc_no_thread (host : Host) (pid : Int) (core : Nat)
    (ht : host.threadExists pid = false) :
    pin_proc host pid core = PinResult.uncaught (PyExc.noSuchProcess pid) none := by
  unfold pin_proc cpu_affinity_call
  simp [ht]

theorem stepOf_eq_some (host : Host) (response : List VCpuEntry)
    (cpus : List Nat) (i : Nat) (pid : Int) (core : Nat) (res : PinResult)
    (h : stepOf host response cpus i = some (pid, core, res)) :
    response[i]? = some ⟨pid⟩ ∧ cpus[i]? = some core
      ∧ res = pin_proc host pid core := by
  unfold stepOf at h
  cases hr : response[i]? with
  | none => rw [hr] at h; exact absurd h (by simp)
  | some entry =>
    obtain ⟨tid⟩ := entry
    rw [hr] at h
    cases hc : cpus[i]? with
    | none => rw [hc] at h; exact absurd h (by simp)
    | some c0 =>
      rw [hc] at h
      simp only [Option.some.injEq, Prod.mk.injEq] at h
      obtain ⟨h1, h2, h3⟩ := h
      subst h1
      subst h2
      subst h3
      exact ⟨rfl, rfl, rfl⟩

end PinCpu

namespace PinCpu

theorem pinLoop_calls (host : Host) (response : List VCpuEntry)
    (cpus : List Nat) :
    ∀ (len i : Nat) (c : Nat × Int × Nat),
      c ∈ (pinLoop host response cpus i len).1 →
      i ≤ c.1 ∧ c.1 < i + len
        ∧ ∃ res, stepOf host response cpus c.1 = some (c.2.1, c.2.2, res) := by
  intro len
  induction len with
  | zero => intro i c hc; simp [pinLoop] at hc
  | succ m ih =>
    intro i c hc
    cases hstep : stepOf host response cpus i with
    | none => simp [pinLoop, hstep] at hc
    | some t =>
      obtain ⟨pid, core, res⟩ := t
      cases res with
      | ok =>
        simp only [pinLoop, hstep, List.mem_cons] at hc
        rcases hc with rfl | hc
        · exact ⟨Nat.le_refl i, by omega, ⟨PinResult.ok, hstep⟩⟩
        · obtain ⟨h1, h2, h3⟩ := ih (i + 1) c hc
          exact ⟨by omega, by omega, h3⟩
      | sysExit code =>
        simp only [pinLoop, hstep, List.mem_singleton] at hc
        subst hc
        exact ⟨Nat.le_refl i, by omega, ⟨PinResult.sysExit code, hstep⟩⟩
      | uncaught e ch =>
        simp only [pinLoop, hstep, List.mem_singleton] at hc
        subst hc
        exact ⟨Nat.le_refl i, by omega, ⟨PinResult.uncaught e ch, hstep⟩⟩

theorem pinLoop_first_fail (host : Host) (response : List VCpuEntry)
    (cpus : List Nat) :
    ∀ (len i j : Nat) (pid : Int) (core : Nat) (e : PyExc) (ch : Option PyExc),
      i ≤ j → j < i + len →
      (∀ k, i ≤ k → k < j →
        ∃ p c, stepOf host response cpus k = some (p, c, PinResult.ok)) →
      stepOf host response cpus j = some (pid, core, PinResult.uncaught e ch) →
      (pinLoop host response cpus i len).2 = Termination.uncaughtExc e ch
        ∧ ∀ x ∈ (pinLoop host response cpus i len).1, x.1 ≤ j := by
  intro len
  induction len with
  | zero => intro i j pid core e ch hij hlt hprev hfail; omega
  | succ m ih =>
    intro i j pid core e ch hij hlt hprev hfail
    rcases Nat.eq_or_lt_of_le hij with rfl | hij'
    · constructor
      · simp [pinLoop, hfail]
      · intro x hx
        simp only [pinLoop, hfail, List.mem_singleton] at hx
        subst hx
        exact Nat.le_refl i
    · obtain ⟨p, c, hok⟩ := hprev i (Nat.le_refl i) hij'
      simp only [pinLoop, hok]
      obtain ⟨ht, hcalls⟩ := ih (i + 1) j pid core e ch (by omega) (by omega)
        (fun k hk1 hk2 => hprev k (by omega) hk2) hfail
      refine ⟨ht, ?_⟩
      intro x hx
      simp only [List.mem_cons] at hx
      rcases hx with rfl | hx
      · omega
      · exact hcalls x hx

theorem pinLoop_index_fail (host : Host) (response : List VCpuEntry)
    (cpus : List Nat) :
    ∀ (len i j : Nat), i ≤ j → j < i + len →
      (∀ k, i ≤ k → k < j →
        ∃ p c, stepOf host response cpus k = some (p, c, PinResult.ok)) →
      stepOf host response cpus j = none →
      (pinLoop host response cpus i len).2
        = Termination.uncaughtExc PyExc.indexError none := by
  intro len
  induction len with
  | zero => intro i j hij hlt hprev hfail; omega
  | succ m ih =>
    intro i j hij hlt hprev hfail
    rcases Nat.eq_or_lt_of_le hij with rfl | hij'
    · simp only [pinLoop, hfail]
    · obtain ⟨p, c, hok⟩ := hprev i (Nat.le_refl i) hij'
      simp only [pinLoop, hok]
      exact ih (i + 1) j (by omega) (by omega)
        (fun k hk1 hk2 => hprev k (by omega) hk2) hfail

theorem pinLoop_complete (host : Host) (response : List VCpuEntry)
    (cpus : List Nat) :
    ∀ (len i : Nat),
      (pinLoop host response cpus i len).2 = Termination.exited 0 →
      ∀ k, i ≤ k → k < i + len →
        ∃ p c, stepOf host response cpus k = some (p, c, PinResult.ok) := by
  intro len
  induction len with
  | zero => intro i _ k hk1 hk2; omega
  | succ m ih =>
    intro i hterm k hk1 hk2
    cases hstep : stepOf host response cpus i with
    | none => simp [pinLoop, hstep] at hterm
    | some t =>
      obtain ⟨pid, core, res⟩ := t
      cases res with
      | ok =>
        rcases Nat.eq_or_lt_of_le hk1 with rfl | hk'
        · exact ⟨pid, core, hstep⟩
        · simp only [pinLoop, hstep] at hterm
          exact ih (i + 1) hterm k hk' (by omega)
      | sysExit code =>
        obtain ⟨_, _, hres⟩ := stepOf_eq_some host response cpus i pid core _ hstep
        exact absurd hres.symm (pin_proc_ne_sysExit host pid core code)
      | uncaught e ch =>
        simp [pinLoop, hstep] at hterm

end PinCpu

namespace PinCpu

/-- C2: the NUMA topology enumerator `onlinecpu` returns, for every
topology, the concatenation over node indices 0..max_node in ascending
order of each node's CPU ids sorted ascending (it is a pure function of
the topology by construction); concretely, for a host with nodes
0 -> cpus [2,0] and 1 -> cpus [3,1] it returns [0,2,1,3]. -/
theorem c2_onlinecpu_numa_concat_sorted :
    (∀ t : Topology,
      onlinecpu t
        = (List.range (t.maxNode + 1)).flatMap
            (fun node => pySorted (t.nodeToCpus node)))
    ∧ (∀ t : Topology, ∀ node : Nat,
        List.Sorted (· ≤ ·) (pySorted (t.nodeToCpus node))
          ∧ (pySorted (t.nodeToCpus node)).Perm (t.nodeToCpus node))
    ∧ onlinecpu exTopology = [0, 2, 1, 3] := by
  refine ⟨onlinecpu_flat, ?_, by decide⟩
  intro t node
  exact ⟨pySorted_sorted _, pySorted_perm _⟩

/-- C1 (code bug): the spec asks that the i-th vCPU be pinned to the i-th
entry of the NUMA-enumerated core list, but the main flow builds the
target list from `range(N)` and never calls `onlinecpu`.  At the failing
input (topology nodes 0 -> [2,0], 1 -> [3,1]; N = 2; thread ids
[111, 222]; 4 cores, all threads existing) the code pins thread 222 to
core 1 while the second entry of the enumerated order [0,2,1,3] is
core 2: the sequence of cores actually pinned differs from the first two
entries of the enumerated order. -/
theorem c1_code_pins_range_not_numa_order :
    (mainRun ("4444") 2 ⟨[⟨111⟩, ⟨222⟩]⟩ ⟨4, fun _ => true⟩).pinCalls
        = [(0, 111, 0), (1, 222, 1)]
    ∧ onlinecpu exTopology = [0, 2, 1, 3]
    ∧ (mainRun ("4444") 2 ⟨[⟨111⟩, ⟨222⟩]⟩ ⟨4, fun _ => true⟩).pinCalls.map
          (fun c => c.2.2)
        ≠ (onlinecpu exTopology).take 2 :=
  ⟨by decide, by decide, by decide⟩

/-- C3: the target core list of the main flow is `range(N)` (the list
comprehension maps each x of range(N) to itself), so every affinity call
the tool makes assigns to vCPU index i the core i itself.  `mainRun`
takes no `Topology` argument because the main flow never invokes
`onlinecpu`: the assignment cannot depend on host NUMA topology. -/
theorem c3_assigned_core_equals_index (port : String) (n : Nat)
    (resp : QmpResponse) (host : Host) :
    o_cpus n = List.range n
    ∧ ∀ c ∈ (mainRun port n resp host).pinCalls, c.2.2 = c.1 := by
  refine ⟨o_cpus_eq_range n, ?_⟩
  intro c hc
  rw [mainRun_pinCalls] at hc
  obtain ⟨h1, h2, res, hstep⟩ := pinLoop_calls host resp.ret (o_cpus n) n 0 c hc
  obtain ⟨hr, hcpus, hres⟩ :=
    stepOf_eq_some host resp.ret (o_cpus n) c.1 c.2.1 c.2.2 res hstep
  have hlt : c.1 < n := by omega
  rw [o_cpus_eq_range, List.getElem?_range hlt] at hcpus
  exact (Option.some_inj.mp hcpus).symm

/-- Witness for C3: in the run with N = 2 and thread ids [111, 222] on a
4-core host, the second affinity call is (1, 222, 1) and its core equals
its vCPU index. -/
theorem c3_assigned_core_equals_index_witness :
    (1, 222, 1) ∈ (mainRun ("4444") 2 ⟨[⟨111⟩, ⟨222⟩]⟩ ⟨4, fun _ => true⟩).pinCalls
    ∧ ((1, 222, 1) : Nat × Int × Nat).2.2 = ((1, 222, 1) : Nat × Int × Nat).1 :=
  ⟨by decide,
    (c3_assigned_core_equals_index ("4444") 2 ⟨[⟨111⟩, ⟨222⟩]⟩
        ⟨4, fun _ => true⟩).2 (1, 222, 1) (by decide)⟩

/-- C9: a run with N = 0 against a reachable endpoint performs no
affinity calls and terminates normally with exit status 0, for every
response and host. -/
theorem c9_zero_vcpus_no_pins_exit_zero (port : String) (resp : QmpResponse)
    (host : Host) :
    (mainRun port 0 resp host).pinCalls = []
    ∧ (mainRun port 0 resp host).term = Termination.exited 0
    ∧ exitStatusOf (mainRun port 0 resp host).term = 0 :=
  ⟨rfl, rfl, rfl⟩

/-- C10: the tool is driven by two positional arguments, modelled as
`port` (= sys.argv[1]) and `n` (= int(sys.argv[2])): the management
endpoint is localhost at the given port, and every affinity call the run
makes is for a vCPU index in 0..N-1. -/
theorem c10_endpoint_localhost_and_index_bound (port : String) (n : Nat)
    (resp : QmpResponse) (host : Host) :
    (mainRun port n resp host).endpoint = "localhost:" ++ port
    ∧ ∀ c ∈ (mainRun port n resp host).pinCalls, c.1 < n := by
  refine ⟨rfl, ?_⟩
  intro c hc
  rw [mainRun_pinCalls] at hc
  obtain ⟨h1, h2, -⟩ := pinLoop_calls host resp.ret (o_cpus n) n 0 c hc
  omega

/-- Witness for C10: the run on port 4444 with N = 2 connects to
localhost:4444, and its first affinity call has index 0 < 2. -/
theorem c10_endpoint_localhost_and_index_bound_witness :
    (mainRun ("4444") 2 ⟨[⟨111⟩, ⟨222⟩]⟩ ⟨4, fun _ => true⟩).endpoint
        = "localhost:" ++ "4444"
    ∧ ((0, 111, 0) : Nat × Int × Nat).1 < 2 :=
  ⟨(c10_endpoint_localhost_and_index_bound ("4444") 2 ⟨[⟨111⟩, ⟨222⟩]⟩
      ⟨4, fun _ => true⟩).1,
   (c10_endpoint_localhost_and_index_bound ("4444") 2 ⟨[⟨111⟩, ⟨222⟩]⟩
      ⟨4, fun _ => true⟩).2 (0, 111, 0) (by decide)⟩

end PinCpu

namespace PinCpu

/-- C4: when the first failing affinity call, at vCPU index i, fails with
an out-of-range core id (psutil raises ValueError), the run writes the
triggering ValueError to the diagnostic stream (as part of the chained
traceback CPython prints for the TypeError that escapes the handler),
terminates with exit status 1, and makes no affinity call for any index
above i. -/
theorem c4_invalid_core_diagnostic_exit_one (port : String) (n : Nat)
    (resp : QmpResponse) (host : Host) (i : Nat)
    (hin : i < n)
    (hprev : ∀ k, k < i →
      ∃ p c, stepOf host resp.ret (o_cpus n) k = some (p, c, PinResult.ok))
    (hentry : ∃ entry, resp.ret[i]? = some entry
      ∧ host.threadExists entry.threadId = true)
    (hcore : host.numCores ≤ i) :
    PyExc.valueError veMsg ∈ stderrOf (mainRun port n resp host).term
    ∧ exitStatusOf (mainRun port n resp host).term = 1
    ∧ ∀ c ∈ (mainRun port n resp host).pinCalls, c.1 ≤ i := by
  obtain ⟨entry, hr, ht⟩ := hentry
  have hcpus : (o_cpus n)[i]? = some i := by
    rw [o_cpus_eq_range]
    exact List.getElem?_range hin
  have hstep : stepOf host resp.ret (o_cpus n) i
      = some (entry.threadId, i,
          PinResult.uncaught (PyExc.typeError tcMsg)
            (some (PyExc.valueError veMsg))) := by
    simp [stepOf, hr, hcpus, pin_proc_invalid_core host entry.threadId i ht hcore]
  obtain ⟨hterm, hcalls⟩ := pinLoop_first_fail host resp.ret (o_cpus n) n 0 i
    entry.threadId i (PyExc.typeError tcMsg) (some (PyExc.valueError veMsg))
    (Nat.zero_le i) (by omega) (fun k _ hk2 => hprev k hk2) hstep
  rw [mainRun_term, hterm]
  refine ⟨by simp [stderrOf], rfl, ?_⟩
  intro c hc
  rw [mainRun_pinCalls] at hc
  exact hcalls c hc

/-- Witness for C4: N = 1, one reported thread id 111, a host with zero
cores (so core 0 is out of range): the ValueError reaches stderr, the
exit status is 1, and no call has index above 0. -/
theorem c4_invalid_core_diagnostic_exit_one_witness :
    (0 : Nat) < 1
    ∧ (⟨0, fun _ => true⟩ : Host).numCores ≤ 0
    ∧ (PyExc.valueError veMsg
          ∈ stderrOf (mainRun ("p") 1 ⟨[⟨111⟩]⟩ ⟨0, fun _ => true⟩).term
        ∧ exitStatusOf (mainRun ("p") 1 ⟨[⟨111⟩]⟩ ⟨0, fun _ => true⟩).term = 1
        ∧ ∀ c ∈ (mainRun ("p") 1 ⟨[⟨111⟩]⟩ ⟨0, fun _ => true⟩).pinCalls,
            c.1 ≤ 0) :=
  ⟨by decide, by decide,
    c4_invalid_core_diagnostic_exit_one ("p") 1 ⟨[⟨111⟩]⟩ ⟨0, fun _ => true⟩ 0
      (by decide) (fun k hk => absurd hk (Nat.not_lt_zero k))
      ⟨⟨111⟩, rfl, rfl⟩ (Nat.le_refl 0)⟩

/-- C5 counterexample: for a non-existent thread id, the error raised by
the affinity call is psutil.NoSuchProcess, which the except-ValueError
clause does not match, so the claim that the error is caught at the
point of the affinity call is false: the run with N = 1, thread id 111
non-existent, terminates through the uncaught NoSuchProcess with no
chained handler exception, the handler never ran, and the process does
not exit through sys.exit (no `exited` termination at all). -/
theorem c5_nonexistent_thread_error_not_caught :
    (mainRun ("p") 1 ⟨[⟨111⟩]⟩ ⟨4, fun _ => false⟩).term
        = Termination.uncaughtExc (PyExc.noSuchProcess 111) none
    ∧ handlerRan (mainRun ("p") 1 ⟨[⟨111⟩]⟩ ⟨4, fun _ => false⟩).term = false
    ∧ stderrOf (mainRun ("p") 1 ⟨[⟨111⟩]⟩ ⟨4, fun _ => false⟩).term
        = [PyExc.noSuchProcess 111]
    ∧ exitStatusOf (mainRun ("p") 1 ⟨[⟨111⟩]⟩ ⟨4, fun _ => false⟩).term = 1 :=
  ⟨by decide, by decide, by decide, by decide⟩

/-- C5 amended: for every affinity call given a non-existent thread id
(all earlier calls having succeeded), the resulting NoSuchProcess error
is NOT caught by the script handler (which matches only ValueError); it
propagates uncaught, the interpreter prints it to the diagnostic stream,
and the process exits immediately with status 1, aborting any remaining
assignments. -/
theorem c5_amended_nonexistent_thread_uncaught_abort (port : String) (n : Nat)
    (resp : QmpResponse) (host : Host) (i : Nat) (pid : Int)
    (hin : i < n)
    (hprev : ∀ k, k < i →
      ∃ p c, stepOf host resp.ret (o_cpus n) k = some (p, c, PinResult.ok))
    (hentry : resp.ret[i]? = some ⟨pid⟩)
    (ht : host.threadExists pid = false) :
    (mainRun port n resp host).term
        = Termination.uncaughtExc (PyExc.noSuchProcess pid) none
    ∧ handlerRan (mainRun port n resp host).term = false
    ∧ PyExc.noSuchProcess pid ∈ stderrOf (mainRun port n resp host).term
    ∧ exitStatusOf (mainRun port n resp host).term = 1
    ∧ ∀ c ∈ (mainRun port n resp host).pinCalls, c.1 ≤ i := by
  have hcpus : (o_cpus n)[i]? = some i := by
    rw [o_cpus_eq_range]
    exact List.getElem?_range hin
  have hstep : stepOf host resp.ret (o_cpus n) i
      = some (pid, i, PinResult.uncaught (PyExc.noSuchProcess pid) none) := by
    simp [stepOf, hentry, hcpus, pin_proc_no_thread host pid i ht]
  obtain ⟨hterm, hcalls⟩ := pinLoop_first_fail host resp.ret (o_cpus n) n 0 i
    pid i (PyExc.noSuchProcess pid) none (Nat.zero_le i) (by omega)
    (fun k _ hk2 => hprev k hk2) hstep
  rw [mainRun_term, hterm]
  refine ⟨rfl, rfl, by simp [stderrOf], rfl, ?_⟩
  intro c hc
  rw [mainRun_pinCalls] at hc
  exact hcalls c hc

/-- Witness for the amended C5: N = 1, reported thread id 111 which does
not exist on the host: the run ends in the uncaught NoSuchProcess. -/
theorem c5_amended_nonexistent_thread_uncaught_abort_witness :
    (0 : Nat) < 1
    ∧ ((⟨4, fun _ => false⟩ : Host).threadExists 111 = false)
    ∧ (mainRun ("p") 1 ⟨[⟨111⟩]⟩ ⟨4, fun _ => false⟩).term
        = Termination.uncaughtExc (PyExc.noSuchProcess 111) none :=
  ⟨by decide, by decide,
    (c5_amended_nonexistent_thread_uncaught_abort ("p") 1 ⟨[⟨111⟩]⟩
        ⟨4, fun _ => false⟩ 0 111 (by decide)
        (fun k hk => absurd hk (Nat.not_lt_zero k)) rfl rfl).1⟩

/-- C6: whenever the affinity call raises ValueError, the first statement
of the exception handler — `print >> sys.stderr, e` — raises TypeError
under Python 3 semantics, so pin_proc terminates through an uncaught
TypeError (chained to the ValueError being handled) and sys.exit(1) is
never reached. -/
theorem c6_handler_print_raises_typeerror (host : Host) (pid : Int)
    (core : Nat) (m : String)
    (h : cpu_affinity_call host pid core = Except.error (PyExc.valueError m)) :
    pin_proc host pid core
        = PinResult.uncaught (PyExc.typeError tcMsg) (some (PyExc.valueError m))
    ∧ printChevronStderr (PyExc.valueError m)
        = Except.error (PyExc.typeError tcMsg)
    ∧ pin_proc host pid core ≠ PinResult.sysExit 1 := by
  have h1 : pin_proc host pid core
      = PinResult.uncaught (PyExc.typeError tcMsg) (some (PyExc.valueError m)) := by
    unfold pin_proc
    rw [h]
    rfl
  exact ⟨h1, rfl, pin_proc_ne_sysExit host pid core 1⟩

/-- Witness for C6: on a zero-core host, the affinity call for thread 7
and core 0 raises ValueError, and pin_proc ends in the uncaught chained
TypeError. -/
theorem c6_handler_print_raises_typeerror_witness :
    cpu_affinity_call ⟨0, fun _ => true⟩ 7 0
        = Except.error (PyExc.valueError veMsg)
    ∧ pin_proc ⟨0, fun _ => true⟩ 7 0
        = PinResult.uncaught (PyExc.typeError tcMsg)
            (some (PyExc.valueError veMsg)) :=
  ⟨rfl,
    (c6_handler_print_raises_typeerror ⟨0, fun _ => true⟩ 7 0 veMsg rfl).1⟩

/-- C7: when the query response has fewer vCPU entries than N, no
affinity call is ever made for an index at or beyond the response
length, the process terminates with a non-zero status, and — when every
index below the response length pins successfully — the terminating
error is precisely the uncaught IndexError from indexing the response. -/
theorem c7_short_response_index_failure (port : String) (n : Nat)
    (resp : QmpResponse) (host : Host)
    (hshort : resp.ret.length < n) :
    (∀ c ∈ (mainRun port n resp host).pinCalls, c.1 < resp.ret.length)
    ∧ exitStatusOf (mainRun port n resp host).term ≠ 0
    ∧ ((∀ k, k < resp.ret.length →
          ∃ p c, stepOf host resp.ret (o_cpus n) k = some (p, c, PinResult.ok)) →
        (mainRun port n resp host).term
          = Termination.uncaughtExc PyExc.indexError none) := by
  have hnone : resp.ret[resp.ret.length]? = none :=
    List.getElem?_eq_none (Nat.le_refl _)
  have hstepnone : stepOf host resp.ret (o_cpus n) resp.ret.length = none := by
    simp [stepOf, hnone]
  refine ⟨?_, ?_, ?_⟩
  · intro c hc
    rw [mainRun_pinCalls] at hc
    obtain ⟨-, -, res, hstep⟩ := pinLoop_calls host resp.ret (o_cpus n) n 0 c hc
    obtain ⟨hr, -, -⟩ :=
      stepOf_eq_some host resp.ret (o_cpus n) c.1 c.2.1 c.2.2 res hstep
    by_contra hge
    rw [List.getElem?_eq_none (Nat.le_of_not_lt hge)] at hr
    exact Option.noConfusion hr
  · rw [mainRun_term]
    intro h0
    cases hterm : (pinLoop host resp.ret (o_cpus n) 0 n).2 with
    | exited c =>
      rw [hterm] at h0
      simp only [exitStatusOf] at h0
      subst h0
      obtain ⟨p, c, hstep⟩ := pinLoop_complete host resp.ret (o_cpus n) n 0
        hterm resp.ret.length (Nat.zero_le _) (by omega)
      rw [hstepnone] at hstep
      exact Option.noConfusion hstep
    | uncaughtExc e ch =>
      rw [hterm] at h0
      simp [exitStatusOf] at h0
  · intro hok
    rw [mainRun_term]
    exact pinLoop_index_fail host resp.ret (o_cpus n) n 0 resp.ret.length
      (Nat.zero_le _) (by omega) (fun k _ hk2 => hok k hk2) hstepnone

/-- Witness for C7: N = 1 with an empty response: the run exits with a
non-zero status through the uncaught IndexError. -/
theorem c7_short_response_index_failure_witness :
    (QmpResponse.mk []).ret.length < 1
    ∧ exitStatusOf (mainRun ("p") 1 ⟨[]⟩ ⟨0, fun _ => false⟩).term ≠ 0 :=
  ⟨by decide,
    (c7_short_response_index_failure ("p") 1 ⟨[]⟩ ⟨0, fun _ => false⟩
        (by decide)).2.1⟩

/-- C8 counterexample: a run issues the query-cpus-fast command twice
(line 31 prints the reply of the first call, line 32 re-issues it for
the return field), so the command log has length 2, not 1. -/
theorem c8_not_exactly_one_query :
    (mainRun ("p") 0 ⟨[]⟩ ⟨0, fun _ => false⟩).commandsIssued
        = [queryCpusFast, queryCpusFast]
    ∧ (mainRun ("p") 0 ⟨[]⟩ ⟨0, fun _ => false⟩).commandsIssued.length ≠ 1 :=
  ⟨rfl, by decide⟩

/-- C8 amended: in every run the tool issues exactly two identical
query-cpus-fast commands over the management connection, printing the
full reply of the first and using the return field of the second; each
reply is an ordered list of records carrying a numeric thread-id. -/
theorem c8_amended_two_identical_queries (port : String) (n : Nat)
    (resp : QmpResponse) (host : Host) :
    (mainRun port n resp host).commandsIssued = [queryCpusFast, queryCpusFast]
    ∧ (mainRun port n resp host).commandsIssued.length = 2
    ∧ (mainRun port n resp host).stdoutResponses = [resp] :=
  ⟨rfl, rfl, rfl⟩

end PinCpu
